import Mathlib

/-!
Verification development for the `RandomAnonymizer` speaker-embedding
anonymization strategy
(`anonymization/modules/speaker_embeddings/anonymization/random_anon.py`).

Shallow embedding conventions:
* Python floats are modelled as rationals (`ℚ`); the claims under study
  concern exact structural facts (lengths, element-wise products, orderings),
  not rounding behaviour.
* The process-wide random source is modelled by explicit oracle functions:
  `rngM j i` is the raw draw used for the integer mask of vector `j`,
  dimension `i` (torch's `Tensor.random_(-40, 40)` maps a raw draw uniformly
  onto the 80 integers of `[-40, 40)`, embedded as `-40 + raw % 80`);
  `rngC j i` is the unit-interval draw behind `np.random.uniform(lo, hi)`.
* The filesystem is a map from path strings to the parsed content of a
  per-dimension stats file: a JSON object is a key-ordered association list
  of `(key, min, max)` entries; an absent path models a missing file.
* Python exceptions are an `Except` error type; attribute access on the
  possibly-missing `_scaling_ranges` slot is modelled with an outer `Option`
  (`none` = attribute never assigned, so reading raises `AttributeError`).
* Effects on `self` are explicit state passing on `AnonState`; each
  operation also returns the number of calibration-file reads it performed.
-/

namespace RandomAnon

/-- A loaded scaling profile: the `(min, max)` pair for each dimension,
in ascending numeric order of the stats-file keys. -/
abbrev Profile := List (ℚ × ℚ)

/-- Parsed-filesystem model: a path either holds a stats JSON object
(association list of stringified-key entries with `min` and `max` fields,
in file order) or is absent. -/
def FS := String → Option (List (String × ℚ × ℚ))

/-- Python-exception model for the code paths under study. -/
inductive PyError where
  /-- Reading an attribute that was never assigned. -/
  | attributeError : PyError
  /-- `open` on a missing path. -/
  | fileNotFoundError (path : String) : PyError
  /-- `int(key)` on a non-numeric string key. -/
  | valueError : PyError
  /-- Iterating over `None`. -/
  | typeError : PyError
  /-- `torch.stack` on an empty list or on tensors of unequal shape. -/
  | stackError : PyError
  deriving DecidableEq, Repr

instance {ε α : Type} [DecidableEq ε] [DecidableEq α] :
    DecidableEq (Except ε α) := fun a b =>
  match a, b with
  | .error x, .error y =>
    if h : x = y then .isTrue (by rw [h])
    else .isFalse (fun hc => by cases hc; exact h rfl)
  | .error _, .ok _ => .isFalse (fun hc => by cases hc)
  | .ok _, .error _ => .isFalse (fun hc => by cases hc)
  | .ok x, .ok y =>
    if h : x = y then .isTrue (by rw [h])
    else .isFalse (fun hc => by cases hc; exact h rfl)

/-- Modelled from the spec: the `SpeakerEmbeddings` batch collaborator
(`EmbeddingBatch`), whose implementation is outside the provided source.
Per the spec it exposes iteration yielding `(identifier, vector)` pairs in
stable order, accessors `original_speakers` and `genders` aligned to that
order, a constructor accepting `{vec_type, device, emb_level}`, and a
`set_vectors` setter accepting `{identifiers, vectors, genders, speakers}`.
`emb_level = none` records that the constructor was invoked without an
`emb_level` argument, so the collaborator's own default applies. -/
structure SpeakerEmbeddings where
  vec_type : String
  device : String
  emb_level : Option String
  identifiers : List String
  vectors : List (List ℚ)
  genders : List String
  original_speakers : List String
  deriving DecidableEq, Repr

/-- Modelled from the spec: constructing an empty batch with the given
configuration (`SpeakerEmbeddings(vec_type=…, device=…[, emb_level=…])`). -/
def SpeakerEmbeddings.construct (vec_type device : String)
    (emb_level : Option String) : SpeakerEmbeddings :=
  { vec_type := vec_type
    device := device
    emb_level := emb_level
    identifiers := []
    vectors := []
    genders := []
    original_speakers := [] }

/-- Modelled from the spec: `set_vectors(identifiers=…, vectors=…,
genders=…, speakers=…)` materializes the batch content. -/
def SpeakerEmbeddings.set_vectors (se : SpeakerEmbeddings)
    (identifiers : List String) (vectors : List (List ℚ))
    (genders : List String) (speakers : List String) : SpeakerEmbeddings :=
  { se with
    identifiers := identifiers
    vectors := vectors
    genders := genders
    original_speakers := speakers }

/-- Modelled from the spec: iterating a batch yields `(identifier, vector)`
pairs in stable order, identifiers aligned with vectors. -/
def SpeakerEmbeddings.pairs (se : SpeakerEmbeddings) :
    List (String × List ℚ) :=
  se.identifiers.zip se.vectors

/-- The mutable attributes of a `RandomAnonymizer` instance.
`scaling_ranges_attr` models the `_scaling_ranges` slot: the outer `none`
means the attribute was never assigned (reading it raises
`AttributeError`), `some none` models Python `None`, and `some (some pr)`
a loaded profile. -/
structure AnonState where
  vec_type : String
  device : String
  model_name : String
  stats_per_dim_path : Option String
  scaling_ranges_attr : Option (Option Profile)
  deriving DecidableEq

/-- Embedding of `RandomAnonymizer.__init__`. The second component counts
calibration-file reads performed during construction: the constructor body
contains no load call, so it is `0` by the structure of the source. -/
def init (device vec_type : String) (model_name : Option String)
    (in_scale : Bool) (stats_per_dim_path : Option String) :
    AnonState × Nat :=
  ({ vec_type := vec_type
     device := device
     model_name := model_name.getD ("random_" ++ vec_type)
     stats_per_dim_path := if in_scale then stats_per_dim_path else none
     scaling_ranges_attr := if in_scale then none else some none }, 0)

/-- Decimal digit value of a character, if it is a digit. -/
def pyDigit (c : Char) : Option Nat :=
  if 48 ≤ c.toNat ∧ c.toNat ≤ 57 then some (c.toNat - 48) else none

/-- Accumulate a decimal number over a digit list. -/
def pyNatFrom : List Char → Nat → Option Nat
  | [], acc => some acc
  | c :: cs, acc =>
    match pyDigit c with
    | some d => pyNatFrom cs (10 * acc + d)
    | none => none

/-- Python `int(s)` on a sign-and-digits decimal string (the canonical
form of stats-file keys); `none` models the `ValueError` raised on a
non-numeric key. -/
def pyInt (s : String) : Option Int :=
  match s.data with
  | [] => none
  | '-' :: cs =>
    if cs.isEmpty then none else (pyNatFrom cs 0).map (fun n => -(n : Int))
  | '+' :: cs =>
    if cs.isEmpty then none else (pyNatFrom cs 0).map (fun n => (n : Int))
  | cs => (pyNatFrom cs 0).map (fun n => (n : Int))

/-- Parse every stats-file key with Python `int`; `none` when some key is
not numeric (Python raises `ValueError` during sorting). -/
def parseEntries : List (String × ℚ × ℚ) → Option (List (Int × ℚ × ℚ))
  | [] => some []
  | (k, lo, hi) :: rest =>
    match pyInt k, parseEntries rest with
    | some n, some r => some ((n, lo, hi) :: r)
    | _, _ => none

/-- Stable comparison used by `sorted(…, key=lambda x: int(x[0]))`. -/
def keyLE (a b : Int × ℚ × ℚ) : Prop := a.1 ≤ b.1

instance : DecidableRel keyLE := fun a b =>
  inferInstanceAs (Decidable (a.1 ≤ b.1))

instance : IsTotal (Int × ℚ × ℚ) keyLE := ⟨fun a b => le_total a.1 b.1⟩

instance : IsTrans (Int × ℚ × ℚ) keyLE :=
  ⟨fun _ _ _ hab hbc => le_trans hab hbc⟩

/-- Embedding of `RandomAnonymizer._load_scaling_ranges`: fall back to
`"stats_per_dim.json"` when the path is `None`, open the file, parse it,
sort the entries by the numeric value of their keys (Python's stable
`sorted` with `key=int`), and return the `(min, max)` pairs in that order,
discarding the keys. -/
def load_scaling_ranges (fs : FS) (stats_per_dim_path : Option String) :
    Except PyError Profile :=
  let path := stats_per_dim_path.getD "stats_per_dim.json"
  match fs path with
  | none => .error (.fileNotFoundError path)
  | some dim_ranges =>
    match parseEntries dim_ranges with
    | none => .error .valueError
    | some keyed =>
      .ok ((List.insertionSort keyLE keyed).map (fun e => (e.2.1, e.2.2)))

/-- Embedding of the `scaling_ranges` property: when a pending path is
configured, load it, store the result in the `_scaling_ranges` slot and
clear the path; then return the slot's value (raising `AttributeError`
when the slot was never assigned). The `Nat` component counts
calibration-file reads performed by the call. -/
def scaling_ranges_get (st : AnonState) (fs : FS) :
    Except PyError (Option Profile × AnonState × Nat) :=
  match st.stats_per_dim_path with
  | some p =>
    match load_scaling_ranges fs (some p) with
    | .error e => .error e
    | .ok pr =>
      .ok (some pr,
        { st with scaling_ranges_attr := some (some pr)
                  stats_per_dim_path := none }, 1)
  | none =>
    match st.scaling_ranges_attr with
    | none => .error .attributeError
    | some v => .ok (v, st, 0)

/-- Python truthiness of the scaling-ranges value: `None` and the empty
list are falsy, a non-empty list is truthy. -/
def profileTruthy : Option Profile → Bool
  | none => false
  | some [] => false
  | some (_ :: _) => true

/-- The integer mask value for vector `j`, dimension `i`:
`Tensor.random_(-40, 40)` draws uniformly from the 80 integers of the
half-open range `[-40, 40)`, embedded as `-40 + raw % 80` over the raw
stream. -/
def maskVal (rngM : Nat → Nat → Nat) (j i : Nat) : Int :=
  -40 + (rngM j i % 80 : Nat)

/-- The masked vector `vector * mask` for vector `j` of the batch:
the mask has one draw per dimension (`torch.zeros(vector.shape[0])
.float().random_(-40, 40)`) and multiplies the vector element-wise. -/
def maskedVector (rngM : Nat → Nat → Nat) (j : Nat) (v : List ℚ) :
    List ℚ :=
  List.zipWith (fun x m => x * (m : ℚ)) v
    ((List.range v.length).map (fun i => maskVal rngM j i))

/-- One `np.random.uniform(lo, hi)` draw, from the raw unit draw `u`. -/
def npUniform (lo hi u : ℚ) : ℚ := lo + u * (hi - lo)

/-- Embedding of `torch.stack`: fails on an empty list or on vectors of
unequal length, otherwise keeps the rows. -/
def torch_stack (l : List (List ℚ)) : Except PyError (List (List ℚ)) :=
  match l with
  | [] => .error .stackError
  | v :: rest =>
    if rest.all (fun w => w.length = v.length) then .ok (v :: rest)
    else .error .stackError

/-- The loop of `_anonymize_data_in_scale`: for each `(identifier, vector)`
pair the property `self.scaling_ranges` is read again and one fresh sample
per profile dimension is drawn; the input vector is never used. Returns
the collected identifiers, the fresh vectors, the final state and the
number of file reads. -/
def inScaleLoop (fs : FS) (rngC : Nat → Nat → ℚ) (st : AnonState)
    (j : Nat) : List (String × List ℚ) →
    Except PyError (List String × List (List ℚ) × AnonState × Nat)
  | [] => .ok ([], [], st, 0)
  | p :: rest =>
    match scaling_ranges_get st fs with
    | .error e => .error e
    | .ok (none, _, _) => .error .typeError
    | .ok (some pr, st1, r1) =>
      let anon_vec := pr.enum.map (fun ir => npUniform ir.2.1 ir.2.2 (rngC j ir.1))
      match inScaleLoop fs rngC st1 (j + 1) rest with
      | .error e => .error e
      | .ok (ids, vecs, st2, r2) => .ok (p.1 :: ids, anon_vec :: vecs, st2, r1 + r2)

/-- Embedding of `RandomAnonymizer._anonymize_data_in_scale`: run the
sampling loop over the batch's pairs, stack the fresh vectors, and
materialize a new batch; the constructor here is called WITHOUT an
`emb_level` argument (`SpeakerEmbeddings(vec_type=…, device=…)`). -/
def anonymize_data_in_scale (st : AnonState) (fs : FS)
    (rngC : Nat → Nat → ℚ) (se : SpeakerEmbeddings) :
    Except PyError (SpeakerEmbeddings × AnonState × Nat) :=
  match inScaleLoop fs rngC st 0 se.pairs with
  | .error e => .error e
  | .ok (ids, vecs, st2, r) =>
    match torch_stack vecs with
    | .error e => .error e
    | .ok stacked =>
      let base := SpeakerEmbeddings.construct st2.vec_type st2.device none
      .ok (base.set_vectors ids stacked se.genders se.original_speakers, st2, r)

/-- Embedding of `RandomAnonymizer.anonymize_embeddings`: read the
`scaling_ranges` property; when it is truthy take the calibrated path,
otherwise mask each input vector element-wise with fresh integer draws,
stack, and materialize a new batch constructed with the caller's
`emb_level`. -/
def anonymize_embeddings (st : AnonState) (fs : FS)
    (rngM : Nat → Nat → Nat) (rngC : Nat → Nat → ℚ)
    (se : SpeakerEmbeddings) (emb_level : String) :
    Except PyError (SpeakerEmbeddings × AnonState × Nat) :=
  match scaling_ranges_get st fs with
  | .error e => .error e
  | .ok (v, st1, rds) =>
    if profileTruthy v then
      match anonymize_data_in_scale st1 fs rngC se with
      | .error e => .error e
      | .ok (out, st2, r2) => .ok (out, st2, rds + r2)
    else
      let anon_vectors := se.pairs.enum.map (fun jp => maskedVector rngM jp.1 jp.2.2)
      match torch_stack anon_vectors with
      | .error e => .error e
      | .ok stacked =>
        let base := SpeakerEmbeddings.construct st1.vec_type st1.device (some emb_level)
        .ok (base.set_vectors (se.pairs.map (fun p => p.1)) stacked
              se.genders se.original_speakers, st1, rds)

/-- Allocation-store wrapper used to state frame (non-mutation)
properties: batches live in a store indexed by position, the input is
passed by reference, and the output is a freshly allocated entry. The
embedding of `anonymize_embeddings` only reads the input entry and
appends the new batch. -/
def anonymize_embeddings_ref (st : AnonState) (fs : FS)
    (rngM : Nat → Nat → Nat) (rngC : Nat → Nat → ℚ)
    (store : List SpeakerEmbeddings) (i : Nat) (emb_level : String) :
    Except PyError (List SpeakerEmbeddings × Nat × AnonState) :=
  match store[i]? with
  | none => .error .typeError
  | some se =>
    match anonymize_embeddings st fs rngM rngC se emb_level with
    | .error e => .error e
    | .ok (out, st2, _) => .ok (store ++ [out], store.length, st2)

/-- Result type of the anonymize operation. -/
abbrev AnonResult := Except PyError (SpeakerEmbeddings × AnonState × Nat)

/-- Whether the operation returned a batch (rather than raising). -/
def runOk : AnonResult → Bool
  | .ok _ => true
  | .error _ => false

/-- The batch returned by a successful run. -/
def outBatch : AnonResult → Option SpeakerEmbeddings
  | .ok t => some t.1
  | .error _ => none

/-- Identifiers of the returned batch. -/
def outIdentifiers (r : AnonResult) : Option (List String) :=
  (outBatch r).map (fun b => b.identifiers)

/-- Gender labels of the returned batch. -/
def outGenders (r : AnonResult) : Option (List String) :=
  (outBatch r).map (fun b => b.genders)

/-- Speaker labels of the returned batch. -/
def outSpeakers (r : AnonResult) : Option (List String) :=
  (outBatch r).map (fun b => b.original_speakers)

/-- Construction-time `emb_level` of the returned batch (`some none` =
the batch was built without an `emb_level` argument). -/
def outEmbLevel (r : AnonResult) : Option (Option String) :=
  (outBatch r).map (fun b => b.emb_level)

/-- Vectors of the returned batch. -/
def outVectors (r : AnonResult) : Option (List (List ℚ)) :=
  (outBatch r).map (fun b => b.vectors)

/-- Dimensionalities of the returned batch's vectors. -/
def outVectorLengths (r : AnonResult) : Option (List Nat) :=
  (outBatch r).map (fun b => b.vectors.map List.length)

/-- Result type of the store-level anonymize wrapper. -/
abbrev RefResult := Except PyError (List SpeakerEmbeddings × Nat × AnonState)

/-- Whether the store-level call returned. -/
def refRunOk : RefResult → Bool
  | .ok _ => true
  | .error _ => false

/-- The store after a successful store-level call. -/
def refResultStore : RefResult → Option (List SpeakerEmbeddings)
  | .ok t => some t.1
  | .error _ => none

/-- The reference to the freshly allocated output batch. -/
def refResultIndex : RefResult → Option Nat
  | .ok t => some t.2.1
  | .error _ => none

/-! ### Concrete fixtures -/

/-- Filesystem fixture for the stats-loader sorting example: one file
whose keys `"10"` and `"2"` are numerically, not lexically, ordered. -/
def fs6 : FS := fun p =>
  if p = "stats.json" then some [("10", 1, 2), ("2", 3, 4)] else none

/-- Filesystem fixture with a three-dimensional stats file at
`"stats.json"`. -/
def fsCal : FS := fun p =>
  if p = "stats.json" then some [("0", 0, 1), ("1", 0, 1), ("2", 0, 1)]
  else none

/-- Filesystem fixture where only the default path
`"stats_per_dim.json"` holds a (one-dimensional) stats file. -/
def fsDefault : FS := fun p =>
  if p = "stats_per_dim.json" then some [("0", 0, 1)] else none

/-- Raw integer-draw oracle that always returns `0` (mask value `-40`). -/
def rngM0 : Nat → Nat → Nat := fun _ _ => 0

/-- Raw integer-draw oracle returning `40` (mask value `0`). -/
def rngM40 : Nat → Nat → Nat := fun _ _ => 40

/-- Unit-draw oracle that always returns `0` (uniform draw hits `lo`). -/
def rngC0 : Nat → Nat → ℚ := fun _ _ => 0

/-- A two-dimensional one-identifier batch. -/
def batchD2 : SpeakerEmbeddings :=
  { vec_type := "xvector"
    device := "cpu"
    emb_level := some "spk"
    identifiers := ["u1"]
    vectors := [[1, 2]]
    genders := ["f"]
    original_speakers := ["s1"] }

/-- A three-dimensional two-identifier batch. -/
def batchD3 : SpeakerEmbeddings :=
  { vec_type := "xvector"
    device := "cpu"
    emb_level := some "spk"
    identifiers := ["u1", "u2"]
    vectors := [[1, 2, 3], [4, 5, 6]]
    genders := ["f", "m"]
    original_speakers := ["s1", "s2"] }

/-- Calibrated-mode state pending the `"stats.json"` path. -/
def stCal : AnonState := (init "cpu" "xvector" none true (some "stats.json")).1

/-- Uncalibrated (masking) state. -/
def stMask : AnonState := (init "cpu" "xvector" none false none).1

/-- Calibrated-mode state constructed with a null stats path. -/
def stCalNull : AnonState := (init "cpu" "xvector" none true none).1

example : load_scaling_ranges fs6 (some "stats.json") = .ok [(3, 4), (1, 2)] := by rfl

example : runOk (anonymize_embeddings stCal fsCal rngM0 rngC0 batchD2 "spk") = true := by rfl

example :
    outVectorLengths (anonymize_embeddings stCal fsCal rngM0 rngC0 batchD2 "spk") =
      some [3] := by rfl

example :
    outIdentifiers (anonymize_embeddings stMask fsCal rngM0 rngC0 batchD2 "utt") =
      some ["u1"] := by rfl

example :
    outEmbLevel (anonymize_embeddings stMask fsCal rngM0 rngC0 batchD2 "utt") =
      some (some "utt") := by rfl

example :
    outEmbLevel (anonymize_embeddings stCal fsCal rngM0 rngC0 batchD3 "utt") =
      some none := by rfl

example : scaling_ranges_get stCalNull fsDefault = .error .attributeError := by rfl

/-! ### Helper lemmas -/

theorem maskVal_mem (rngM : Nat → Nat → Nat) (j i : Nat) :
    -40 ≤ maskVal rngM j i ∧ maskVal rngM j i ≤ 39 := by
  have h : rngM j i % 80 < 80 := Nat.mod_lt _ (by omega)
  unfold maskVal
  omega

theorem maskedVector_length (rngM : Nat → Nat → Nat) (j : Nat) (v : List ℚ) :
    (maskedVector rngM j v).length = v.length := by
  simp [maskedVector]

theorem maskedVector_getElem (rngM : Nat → Nat → Nat) (j : Nat) (v : List ℚ)
    (i : Nat) :
    (maskedVector rngM j v)[i]? =
      (v[i]?).map (fun x => x * ((maskVal rngM j i : Int) : ℚ)) := by
  by_cases h : i < v.length
  · have hx : v[i]? = some (v.get ⟨i, h⟩) := List.getElem?_eq_getElem h
    simp [maskedVector, List.getElem?_zipWith', hx, List.getElem?_map,
      List.getElem?_range, h]
  · have hv : v[i]? = none := by
      rw [List.getElem?_eq_none_iff]
      omega
    have hm : (maskedVector rngM j v)[i]? = none := by
      rw [List.getElem?_eq_none_iff, maskedVector_length]
      omega
    simp [hv, hm]

theorem scaling_ranges_stable (st st1 : AnonState) (fs : FS)
    (v : Option Profile) (r : Nat)
    (h : scaling_ranges_get st fs = .ok (v, st1, r)) :
    scaling_ranges_get st1 fs = .ok (v, st1, 0) := by
  cases hp : st.stats_per_dim_path with
  | some p =>
    cases hl : load_scaling_ranges fs (some p) with
    | error e => simp [scaling_ranges_get, hp, hl] at h
    | ok pr =>
      simp [scaling_ranges_get, hp, hl] at h
      obtain ⟨hv, hst, hr⟩ := h
      subst hv
      subst hst
      simp [scaling_ranges_get]
  | none =>
    cases ha : st.scaling_ranges_attr with
    | none => simp [scaling_ranges_get, hp, ha] at h
    | some v0 =>
      simp [scaling_ranges_get, hp, ha] at h
      obtain ⟨hv, hst, hr⟩ := h
      subst hv
      subst hst
      simp [scaling_ranges_get, hp, ha]

theorem inScaleLoop_spec (fs : FS) (rngC : Nat → Nat → ℚ) (st : AnonState)
    (pr : Profile)
    (hst : scaling_ranges_get st fs = .ok (some pr, st, 0)) :
    ∀ (ps : List (String × List ℚ)) (j : Nat), ∃ vecs,
      inScaleLoop fs rngC st j ps = .ok (ps.map (fun p => p.1), vecs, st, 0)
      ∧ vecs.length = ps.length
      ∧ ∀ w ∈ vecs, w.length = pr.length := by
  intro ps
  induction ps with
  | nil => intro j; exact ⟨[], rfl, rfl, by simp⟩
  | cons p rest ih =>
    intro j
    obtain ⟨vecs, hrec, hlen, hmem⟩ := ih (j + 1)
    refine ⟨(pr.enum.map (fun ir => npUniform ir.2.1 ir.2.2 (rngC j ir.1))) :: vecs,
      ?_, by simp [hlen], ?_⟩
    · simp [inScaleLoop, hst, hrec]
    · intro w hw
      rcases List.mem_cons.mp hw with h1 | h1
      · subst h1
        simp
      · exact hmem _ h1

theorem torch_stack_ok (l l2 : List (List ℚ)) (h : torch_stack l = .ok l2) :
    l2 = l ∧ l ≠ [] := by
  cases l with
  | nil => exact absurd h (by simp [torch_stack])
  | cons v rest =>
    simp only [torch_stack] at h
    split at h
    · injection h with h1
      exact ⟨h1.symm, by simp⟩
    · exact absurd h (by simp)

theorem torch_stack_of_uniform (l : List (List ℚ)) (L : Nat) (hne : l ≠ [])
    (hmem : ∀ w ∈ l, w.length = L) : torch_stack l = .ok l := by
  cases l with
  | nil => exact absurd rfl hne
  | cons v rest =>
    have hv : v.length = L := hmem v (by simp)
    have hall : rest.all (fun w => w.length = v.length) = true := by
      rw [List.all_eq_true]
      intro w hw
      have hwl := hmem w (List.mem_cons_of_mem _ hw)
      simp [hwl, hv]
    simp [torch_stack, hall]

theorem anonymize_data_in_scale_spec (st1 : AnonState) (fs : FS)
    (rngC : Nat → Nat → ℚ) (se : SpeakerEmbeddings) (pr : Profile)
    (hst : scaling_ranges_get st1 fs = .ok (some pr, st1, 0))
    (hne : se.pairs ≠ []) :
    ∃ vecs,
      anonymize_data_in_scale st1 fs rngC se =
        .ok ((SpeakerEmbeddings.construct st1.vec_type st1.device none).set_vectors
              (se.pairs.map (fun p => p.1)) vecs se.genders se.original_speakers,
             st1, 0)
      ∧ vecs.length = se.pairs.length
      ∧ ∀ w ∈ vecs, w.length = pr.length := by
  obtain ⟨vecs, hloop, hlen, hmem⟩ := inScaleLoop_spec fs rngC st1 pr hst se.pairs 0
  have hvne : vecs ≠ [] := by
    intro hv
    rw [hv] at hlen
    exact hne (List.length_eq_zero.mp hlen.symm)
  have hstack := torch_stack_of_uniform vecs pr.length hvne hmem
  exact ⟨vecs, by simp [anonymize_data_in_scale, hloop, hstack], hlen, hmem⟩

theorem anonymize_calibrated_spec (st : AnonState) (fs : FS)
    (rngM : Nat → Nat → Nat) (rngC : Nat → Nat → ℚ) (se : SpeakerEmbeddings)
    (lvl : String) (pr : Profile) (st1 : AnonState) (rds : Nat)
    (hacc : scaling_ranges_get st fs = .ok (some pr, st1, rds))
    (hpr : pr ≠ [])
    (hok : runOk (anonymize_embeddings st fs rngM rngC se lvl) = true) :
    ∃ vecs,
      anonymize_embeddings st fs rngM rngC se lvl =
        .ok ((SpeakerEmbeddings.construct st1.vec_type st1.device none).set_vectors
              (se.pairs.map (fun p => p.1)) vecs se.genders se.original_speakers,
             st1, rds)
      ∧ vecs.length = se.pairs.length
      ∧ ∀ w ∈ vecs, w.length = pr.length := by
  have htr : profileTruthy (some pr) = true := by
    cases pr with
    | nil => exact absurd rfl hpr
    | cons a l => rfl
  have hst : scaling_ranges_get st1 fs = .ok (some pr, st1, 0) :=
    scaling_ranges_stable st st1 fs (some pr) rds hacc
  by_cases hne : se.pairs = []
  · obtain ⟨vecs, hloop, hlen, hmem⟩ := inScaleLoop_spec fs rngC st1 pr hst se.pairs 0
    rw [hne] at hloop
    have : vecs = [] := by
      rw [hne] at hlen
      exact List.length_eq_zero.mp hlen
    subst this
    simp [anonymize_embeddings, hacc, htr, anonymize_data_in_scale, hne, hloop,
      torch_stack, runOk] at hok
  · obtain ⟨vecs, hcal, hlen, hmem⟩ :=
      anonymize_data_in_scale_spec st1 fs rngC se pr hst hne
    exact ⟨vecs, by simp [anonymize_embeddings, hacc, htr, hcal], hlen, hmem⟩

theorem anonymize_masking_spec (st : AnonState) (fs : FS)
    (rngM : Nat → Nat → Nat) (rngC : Nat → Nat → ℚ) (se : SpeakerEmbeddings)
    (lvl : String) (v : Option Profile) (st1 : AnonState) (rds : Nat)
    (hacc : scaling_ranges_get st fs = .ok (v, st1, rds))
    (hfalsy : profileTruthy v = false)
    (hok : runOk (anonymize_embeddings st fs rngM rngC se lvl) = true) :
    anonymize_embeddings st fs rngM rngC se lvl =
      .ok ((SpeakerEmbeddings.construct st1.vec_type st1.device (some lvl)).set_vectors
            (se.pairs.map (fun p => p.1))
            (se.pairs.enum.map (fun jp => maskedVector rngM jp.1 jp.2.2))
            se.genders se.original_speakers, st1, rds) := by
  cases hstack : torch_stack (se.pairs.enum.map (fun jp => maskedVector rngM jp.1 jp.2.2)) with
  | error e =>
    simp [anonymize_embeddings, hacc, hfalsy, hstack, runOk] at hok
  | ok stacked =>
    obtain ⟨hst, _⟩ := torch_stack_ok _ _ hstack
    subst hst
    simp [anonymize_embeddings, hacc, hfalsy, hstack]

theorem pairs_length (se : SpeakerEmbeddings)
    (hlen : se.identifiers.length = se.vectors.length) :
    se.pairs.length = se.identifiers.length := by
  simp [SpeakerEmbeddings.pairs, hlen]

theorem pairs_map_fst (se : SpeakerEmbeddings)
    (hlen : se.identifiers.length = se.vectors.length) :
    se.pairs.map (fun p => p.1) = se.identifiers :=
  List.map_fst_zip se.identifiers se.vectors (le_of_eq hlen)

theorem masked_lengths (rngM : Nat → Nat → Nat)
    (ps : List (String × List ℚ)) :
    (ps.enum.map (fun jp => maskedVector rngM jp.1 jp.2.2)).map List.length =
      ps.map (fun p => p.2.length) := by
  rw [List.map_map]
  have h2 : (List.length ∘ fun jp : Nat × String × List ℚ =>
      maskedVector rngM jp.1 jp.2.2) =
      (fun p : String × List ℚ => p.2.length) ∘ Prod.snd := by
    funext jp
    simp [maskedVector_length]
  rw [h2, ← List.map_map, List.enum_map_snd]

theorem calibrated_vector_lengths (st : AnonState) (fs : FS)
    (rngM : Nat → Nat → Nat) (rngC : Nat → Nat → ℚ) (se : SpeakerEmbeddings)
    (lvl : String) (pr : Profile) (st1 : AnonState) (rds : Nat)
    (hacc : scaling_ranges_get st fs = .ok (some pr, st1, rds))
    (hpr : pr ≠ [])
    (hok : runOk (anonymize_embeddings st fs rngM rngC se lvl) = true) :
    outVectorLengths (anonymize_embeddings st fs rngM rngC se lvl) =
      some (List.replicate se.pairs.length pr.length) := by
  obtain ⟨vecs, heq, hlenv, hmem⟩ :=
    anonymize_calibrated_spec st fs rngM rngC se lvl pr st1 rds hacc hpr hok
  rw [heq]
  simp only [outVectorLengths, outBatch, SpeakerEmbeddings.set_vectors,
    SpeakerEmbeddings.construct, Option.map_some']
  congr 1
  exact List.eq_replicate_iff.2 ⟨by simp [hlenv], by
    intro b hb
    obtain ⟨w, hw, hwb⟩ := List.mem_map.mp hb
    rw [← hwb]
    exact hmem w hw⟩

/-! ### Claim theorems -/

/-- C5: constructing the strategy performs no calibration-file read (the
constructor's read count is zero); the first read of the `scaling_ranges`
accessor with a pending path configured loads the file exactly once
(read count one), stores the result in the cache slot, and clears the
pending path; the subsequent read returns the cached value with zero
reads and leaves the state unchanged, so no re-read ever occurs. -/
theorem lazy_cache_loads_exactly_once (st : AnonState) (fs : FS)
    (p : String) (pr : Profile)
    (hpend : st.stats_per_dim_path = some p)
    (hload : load_scaling_ranges fs (some p) = .ok pr) :
    (∀ device vt mn isc sp, (init device vt mn isc sp).2 = 0)
    ∧ scaling_ranges_get st fs =
        .ok (some pr, { st with scaling_ranges_attr := some (some pr),
                                stats_per_dim_path := none }, 1)
    ∧ scaling_ranges_get
        { st with scaling_ranges_attr := some (some pr),
                  stats_per_dim_path := none } fs =
        .ok (some pr, { st with scaling_ranges_attr := some (some pr),
                                stats_per_dim_path := none }, 0) := by
  refine ⟨fun _ _ _ _ _ => rfl, ?_, ?_⟩
  · simp [scaling_ranges_get, hpend, hload]
  · rfl

/-- Witness for C5: the calibrated fixture state pending `"stats.json"`
loads the three-dimensional profile on first access and caches it. -/
theorem lazy_cache_loads_exactly_once_witness :
    (∀ device vt mn isc sp, (init device vt mn isc sp).2 = 0)
    ∧ scaling_ranges_get stCal fsCal =
        .ok (some [(0, 1), (0, 1), (0, 1)],
          { stCal with scaling_ranges_attr := some (some [(0, 1), (0, 1), (0, 1)]),
                       stats_per_dim_path := none }, 1)
    ∧ scaling_ranges_get
        { stCal with scaling_ranges_attr := some (some [(0, 1), (0, 1), (0, 1)]),
                     stats_per_dim_path := none } fsCal =
        .ok (some [(0, 1), (0, 1), (0, 1)],
          { stCal with scaling_ranges_attr := some (some [(0, 1), (0, 1), (0, 1)]),
                       stats_per_dim_path := none }, 0) :=
  lazy_cache_loads_exactly_once stCal fsCal "stats.json" [(0, 1), (0, 1), (0, 1)]
    (by rfl) (by rfl)

/-- C6: the stats loader sorts file entries by the numeric value of their
string keys and returns the `(min, max)` pairs in that order with the
keys discarded: on `{"10": {"min":1,"max":2}, "2": {"min":3,"max":4}}` it
returns `[(3,4), (1,2)]`; in general the result is the `(min, max)`
projection of a numerically-sorted permutation of the file's entries. -/
theorem stats_loader_sorts_numerically :
    load_scaling_ranges fs6 (some "stats.json") = .ok [(3, 4), (1, 2)]
    ∧ ∀ (fs : FS) (path : String) (entries : List (String × ℚ × ℚ))
        (keyed : List (Int × ℚ × ℚ)),
        fs path = some entries → parseEntries entries = some keyed →
          ∃ sortedKeyed,
            load_scaling_ranges fs (some path) =
              .ok (sortedKeyed.map (fun e => (e.2.1, e.2.2)))
            ∧ sortedKeyed.Perm keyed
            ∧ List.Sorted keyLE sortedKeyed := by
  refine ⟨by rfl, ?_⟩
  intro fs path entries keyed hfs hparse
  refine ⟨List.insertionSort keyLE keyed, ?_, List.perm_insertionSort keyLE keyed,
    List.sorted_insertionSort keyLE keyed⟩
  simp [load_scaling_ranges, hfs, hparse]

/-- Witness for C6: the general sorting statement applied to the concrete
two-entry file with keys `"10"` and `"2"`. -/
theorem stats_loader_sorts_numerically_witness :
    ∃ sortedKeyed,
      load_scaling_ranges fs6 (some "stats.json") =
        .ok (sortedKeyed.map (fun e => (e.2.1, e.2.2)))
      ∧ sortedKeyed.Perm [(10, 1, 2), (2, 3, 4)]
      ∧ List.Sorted keyLE sortedKeyed :=
  stats_loader_sorts_numerically.2 fs6 "stats.json"
    [("10", 1, 2), ("2", 3, 4)] [(10, 1, 2), (2, 3, 4)] (by rfl) (by rfl)

/-- C8 (code bug): with `in_scale=True` and a null stats path, the default
file `"stats_per_dim.json"` is present and loadable through the loader's
fallback, yet the public `scaling_ranges` accessor raises
`AttributeError` instead of loading it (the fallback is unreachable from
the accessor because the load is only attempted for a non-null pending
path), and `anonymize_embeddings` fails the same way. -/
theorem null_path_default_fallback_unreachable :
    load_scaling_ranges fsDefault none = .ok [(0, 1)]
    ∧ scaling_ranges_get stCalNull fsDefault = .error .attributeError
    ∧ anonymize_embeddings stCalNull fsDefault rngM0 rngC0 batchD2 "spk" =
        .error .attributeError :=
  ⟨by rfl, by rfl, by rfl⟩

/-- C10: a strategy constructed with `in_scale=True` and
`stats_per_dim_path=None` leaves the cache slot unassigned and the pending
path null, so any read of the `scaling_ranges` accessor — and hence any
`anonymize_embeddings` call — fails with `AttributeError`, for every
filesystem content. -/
theorem null_path_calibrated_raises_attribute_error
    (device vt : String) (mn : Option String) (fs : FS)
    (rngM : Nat → Nat → Nat) (rngC : Nat → Nat → ℚ)
    (se : SpeakerEmbeddings) (lvl : String) :
    scaling_ranges_get (init device vt mn true none).1 fs =
      .error .attributeError
    ∧ anonymize_embeddings (init device vt mn true none).1 fs rngM rngC se lvl =
      .error .attributeError :=
  ⟨rfl, rfl⟩

/-- C1 counterexample: in calibrated mode with a loaded profile of length
3 and a batch whose only vector has length 2 (a dimensionality mismatch),
the anonymize operation does NOT fail: it returns a result, and the
returned vector has length 3 — the profile's length, not the batch's. -/
theorem calibrated_shape_mismatch_counterexample :
    batchD2.vectors.map List.length = [2]
    ∧ load_scaling_ranges fsCal (some "stats.json") = .ok [(0, 1), (0, 1), (0, 1)]
    ∧ runOk (anonymize_embeddings stCal fsCal rngM0 rngC0 batchD2 "spk") = true
    ∧ outVectorLengths (anonymize_embeddings stCal fsCal rngM0 rngC0 batchD2 "spk") =
        some [3] :=
  ⟨rfl, rfl, rfl, rfl⟩

/-- C1 amended: the calibrated path performs no dimensionality check at
all: whenever the accessor yields a non-empty profile and the call
returns, every output vector has the profile's length, whatever the
dimensionality of the batch's vectors (which are ignored wholesale) — no
`ShapeError` is raised on a mismatch. -/
theorem calibrated_output_has_profile_length (st : AnonState) (fs : FS)
    (rngM : Nat → Nat → Nat) (rngC : Nat → Nat → ℚ) (se : SpeakerEmbeddings)
    (lvl : String) (pr : Profile) (st1 : AnonState) (rds : Nat)
    (hacc : scaling_ranges_get st fs = .ok (some pr, st1, rds))
    (hpr : pr ≠ [])
    (hok : runOk (anonymize_embeddings st fs rngM rngC se lvl) = true) :
    outVectorLengths (anonymize_embeddings st fs rngM rngC se lvl) =
      some (List.replicate se.pairs.length pr.length) :=
  calibrated_vector_lengths st fs rngM rngC se lvl pr st1 rds hacc hpr hok

/-- Witness for the amended C1: the calibrated fixture run on the
two-dimensional batch yields one vector of length 3. -/
theorem calibrated_output_has_profile_length_witness :
    outVectorLengths (anonymize_embeddings stCal fsCal rngM0 rngC0 batchD2 "spk") =
      some [3] :=
  calibrated_output_has_profile_length stCal fsCal rngM0 rngC0 batchD2 "spk"
    [(0, 1), (0, 1), (0, 1)]
    { stCal with scaling_ranges_attr := some (some [(0, 1), (0, 1), (0, 1)]),
                 stats_per_dim_path := none } 1
    (by rfl) (by simp) (by rfl)

/-- C2: on the uncalibrated (masking) path the output vectors are exactly
the input vectors multiplied element-wise by the per-dimension integer
masks; every mask value lies in `[-40, 39]` (the image of a uniform draw
over the 80 integers of `[-40, 40)`); and a mask of `0` at dimension `i`
yields output `0` at dimension `i` regardless of the input value. -/
theorem masking_path_elementwise_product (device vt : String)
    (mn sp : Option String) (fs : FS) (rngM : Nat → Nat → Nat)
    (rngC : Nat → Nat → ℚ) (se : SpeakerEmbeddings) (lvl : String)
    (hok : runOk (anonymize_embeddings (init device vt mn false sp).1
        fs rngM rngC se lvl) = true) :
    outVectors (anonymize_embeddings (init device vt mn false sp).1
        fs rngM rngC se lvl) =
      some (se.pairs.enum.map (fun jp => maskedVector rngM jp.1 jp.2.2))
    ∧ (∀ j i, -40 ≤ maskVal rngM j i ∧ maskVal rngM j i ≤ 39)
    ∧ (∀ j (w : List ℚ) i, (maskedVector rngM j w)[i]? =
        (w[i]?).map (fun x => x * ((maskVal rngM j i : Int) : ℚ)))
    ∧ (∀ j (w : List ℚ) i, i < w.length → maskVal rngM j i = 0 →
        (maskedVector rngM j w)[i]? = some 0) := by
  have hacc : scaling_ranges_get (init device vt mn false sp).1 fs =
      .ok (none, (init device vt mn false sp).1, 0) := rfl
  have heq := anonymize_masking_spec (init device vt mn false sp).1 fs rngM rngC
    se lvl none (init device vt mn false sp).1 0 hacc rfl hok
  refine ⟨?_, maskVal_mem rngM, maskedVector_getElem rngM, ?_⟩
  · rw [heq]
    rfl
  · intro j w i hi h0
    rw [maskedVector_getElem, List.getElem?_eq_getElem hi, h0]
    simp

/-- Witness for C2: the uncalibrated fixture run on the two-dimensional
batch, with the all-zero raw stream (mask value `-40` everywhere). -/
theorem masking_path_elementwise_product_witness :
    outVectors (anonymize_embeddings stMask fsCal rngM0 rngC0 batchD2 "utt") =
      some (batchD2.pairs.enum.map (fun jp => maskedVector rngM0 jp.1 jp.2.2))
    ∧ (∀ j i, -40 ≤ maskVal rngM0 j i ∧ maskVal rngM0 j i ≤ 39)
    ∧ (∀ j (w : List ℚ) i, (maskedVector rngM0 j w)[i]? =
        (w[i]?).map (fun x => x * ((maskVal rngM0 j i : Int) : ℚ)))
    ∧ (∀ j (w : List ℚ) i, i < w.length → maskVal rngM0 j i = 0 →
        (maskedVector rngM0 j w)[i]? = some 0) :=
  masking_path_elementwise_product "cpu" "xvector" none none fsCal rngM0 rngC0
    batchD2 "utt" (by rfl)

/-- C3: for every non-empty, index-aligned batch on which the call
returns, the output batch has exactly the input's identifiers in the same
order, carries the input's speaker and gender label lists through by
association, and holds one freshly computed vector per identifier — on
the masking path and on the calibrated path alike. -/
theorem anonymize_preserves_identity_and_metadata (st : AnonState) (fs : FS)
    (rngM : Nat → Nat → Nat) (rngC : Nat → Nat → ℚ) (se : SpeakerEmbeddings)
    (lvl : String)
    (hlen : se.identifiers.length = se.vectors.length)
    (hne : se.identifiers ≠ [])
    (hok : runOk (anonymize_embeddings st fs rngM rngC se lvl) = true) :
    outIdentifiers (anonymize_embeddings st fs rngM rngC se lvl) =
      some se.identifiers
    ∧ outGenders (anonymize_embeddings st fs rngM rngC se lvl) = some se.genders
    ∧ outSpeakers (anonymize_embeddings st fs rngM rngC se lvl) =
      some se.original_speakers
    ∧ (outVectors (anonymize_embeddings st fs rngM rngC se lvl)).map List.length =
      some se.identifiers.length := by
  cases hacc : scaling_ranges_get st fs with
  | error e => simp [anonymize_embeddings, hacc, runOk] at hok
  | ok t =>
    obtain ⟨v, st1, rds⟩ := t
    by_cases htr : profileTruthy v = true
    · cases v with
      | none => simp [profileTruthy] at htr
      | some pr =>
        have hpr : pr ≠ [] := by
          cases pr with
          | nil => simp [profileTruthy] at htr
          | cons a l => simp
        obtain ⟨vecs, heq, hlenv, hmem⟩ :=
          anonymize_calibrated_spec st fs rngM rngC se lvl pr st1 rds hacc hpr hok
        rw [heq]
        refine ⟨?_, rfl, rfl, ?_⟩
        · simp only [outIdentifiers, outBatch, SpeakerEmbeddings.set_vectors,
            SpeakerEmbeddings.construct, Option.map_some']
          rw [pairs_map_fst se hlen]
        · simp only [outVectors, outBatch, SpeakerEmbeddings.set_vectors,
            SpeakerEmbeddings.construct, Option.map_some']
          rw [hlenv, pairs_length se hlen]
    · have hfalsy : profileTruthy v = false := by
        cases hb : profileTruthy v with
        | false => rfl
        | true => exact absurd hb htr
      have heq := anonymize_masking_spec st fs rngM rngC se lvl v st1 rds hacc
        hfalsy hok
      rw [heq]
      refine ⟨?_, rfl, rfl, ?_⟩
      · simp only [outIdentifiers, outBatch, SpeakerEmbeddings.set_vectors,
          SpeakerEmbeddings.construct, Option.map_some']
        rw [pairs_map_fst se hlen]
      · simp only [outVectors, outBatch, SpeakerEmbeddings.set_vectors,
          SpeakerEmbeddings.construct, Option.map_some', List.length_map,
          List.enum_length]
        rw [pairs_length se hlen]

/-- Witness for C3: the calibrated fixture run on the three-dimensional
two-identifier batch preserves identifiers, genders and speakers. -/
theorem anonymize_preserves_identity_and_metadata_witness :
    outIdentifiers (anonymize_embeddings stCal fsCal rngM0 rngC0 batchD3 "spk") =
      some ["u1", "u2"]
    ∧ outGenders (anonymize_embeddings stCal fsCal rngM0 rngC0 batchD3 "spk") =
      some ["f", "m"]
    ∧ outSpeakers (anonymize_embeddings stCal fsCal rngM0 rngC0 batchD3 "spk") =
      some ["s1", "s2"]
    ∧ (outVectors (anonymize_embeddings stCal fsCal rngM0 rngC0 batchD3 "spk")).map
        List.length = some 2 :=
  anonymize_preserves_identity_and_metadata stCal fsCal rngM0 rngC0 batchD3 "spk"
    (by rfl) (by simp [batchD3]) (by rfl)

/-- C4: for every valid batch — index-aligned, uniformly D-dimensional
vectors, and (when the accessor yields a profile, i.e. on the calibrated
dispatch) a profile of length D, the spec's stated precondition — every
vector of the returned batch is also D-dimensional, on both paths. -/
theorem anonymize_preserves_dimensionality (st : AnonState) (fs : FS)
    (rngM : Nat → Nat → Nat) (rngC : Nat → Nat → ℚ) (se : SpeakerEmbeddings)
    (lvl : String) (D : Nat) (v : Option Profile) (st1 : AnonState) (rds : Nat)
    (hlen : se.identifiers.length = se.vectors.length)
    (hD : ∀ w ∈ se.vectors, w.length = D)
    (hacc : scaling_ranges_get st fs = .ok (v, st1, rds))
    (hcal : ∀ pr, v = some pr → pr.length = D)
    (hok : runOk (anonymize_embeddings st fs rngM rngC se lvl) = true) :
    outVectorLengths (anonymize_embeddings st fs rngM rngC se lvl) =
      some (List.replicate se.identifiers.length D) := by
  by_cases htr : profileTruthy v = true
  · cases v with
    | none => simp [profileTruthy] at htr
    | some pr =>
      have hpr : pr ≠ [] := by
        cases pr with
        | nil => simp [profileTruthy] at htr
        | cons a l => simp
      have hcl := calibrated_vector_lengths st fs rngM rngC se lvl pr
        st1 rds hacc hpr hok
      rw [hcl, hcal pr rfl, pairs_length se hlen]
  · have hfalsy : profileTruthy v = false := by
      cases hb : profileTruthy v with
      | false => rfl
      | true => exact absurd hb htr
    have heq := anonymize_masking_spec st fs rngM rngC se lvl v st1 rds hacc
      hfalsy hok
    rw [heq]
    simp only [outVectorLengths, outBatch, SpeakerEmbeddings.set_vectors,
      SpeakerEmbeddings.construct, Option.map_some']
    rw [masked_lengths]
    congr 1
    refine List.eq_replicate_iff.2 ⟨by simp [pairs_length se hlen], ?_⟩
    intro b hb
    obtain ⟨p, hp, hpb⟩ := List.mem_map.mp hb
    rw [← hpb]
    exact hD p.2 (List.of_mem_zip hp).2

/-- Witness for C4: the calibrated fixture run on the three-dimensional
two-identifier batch with the three-dimensional profile returns two
three-dimensional vectors. -/
theorem anonymize_preserves_dimensionality_witness :
    outVectorLengths (anonymize_embeddings stCal fsCal rngM0 rngC0 batchD3 "spk") =
      some [3, 3] :=
  anonymize_preserves_dimensionality stCal fsCal rngM0 rngC0 batchD3 "spk" 3
    (some [(0, 1), (0, 1), (0, 1)])
    { stCal with scaling_ranges_attr := some (some [(0, 1), (0, 1), (0, 1)]),
                 stats_per_dim_path := none } 1
    (by rfl) (by intro w hw; fin_cases hw <;> rfl) (by rfl)
    (by intro pr hpr; injection hpr with h; subst h; rfl) (by rfl)

/-- C7 counterexample: on the calibrated path the caller's level tag is
NOT forwarded: a calibrated call with level `"utt"` returns a batch
constructed without any `emb_level` argument (recorded as `none`), while
the masking path does forward the tag. -/
theorem emb_level_dropped_on_calibrated_counterexample :
    outEmbLevel (anonymize_embeddings stCal fsCal rngM0 rngC0 batchD3 "utt") =
      some none
    ∧ (none : Option String) ≠ some "utt"
    ∧ outEmbLevel (anonymize_embeddings stMask fsCal rngM0 rngC0 batchD3 "utt") =
      some (some "utt") :=
  ⟨rfl, by simp, rfl⟩

/-- C7 amended: the level tag passed by the caller is forwarded to the
output batch's construction on the masking path only; on the calibrated
path the output batch is constructed without the tag (the collaborator's
default applies) and the tag is not otherwise interpreted on either
path. -/
theorem emb_level_forwarded_only_when_masking (st : AnonState) (fs : FS)
    (rngM : Nat → Nat → Nat) (rngC : Nat → Nat → ℚ) (se : SpeakerEmbeddings)
    (lvl : String) (v : Option Profile) (st1 : AnonState) (rds : Nat)
    (hacc : scaling_ranges_get st fs = .ok (v, st1, rds))
    (hok : runOk (anonymize_embeddings st fs rngM rngC se lvl) = true) :
    outEmbLevel (anonymize_embeddings st fs rngM rngC se lvl) =
      some (if profileTruthy v then none else some lvl) := by
  by_cases htr : profileTruthy v = true
  · cases v with
    | none => simp [profileTruthy] at htr
    | some pr =>
      have hpr : pr ≠ [] := by
        cases pr with
        | nil => simp [profileTruthy] at htr
        | cons a l => simp
      obtain ⟨vecs, heq, _, _⟩ :=
        anonymize_calibrated_spec st fs rngM rngC se lvl pr st1 rds hacc hpr hok
      rw [heq, htr]
      rfl
  · have hfalsy : profileTruthy v = false := by
      cases hb : profileTruthy v with
      | false => rfl
      | true => exact absurd hb htr
    have heq := anonymize_masking_spec st fs rngM rngC se lvl v st1 rds hacc
      hfalsy hok
    rw [heq, hfalsy]
    rfl

/-- Witness for the amended C7: the masking fixture run forwards the
caller's `"utt"` tag into the output batch construction. -/
theorem emb_level_forwarded_only_when_masking_witness :
    outEmbLevel (anonymize_embeddings stMask fsCal rngM0 rngC0 batchD2 "utt") =
      some (some "utt") :=
  emb_level_forwarded_only_when_masking stMask fsCal rngM0 rngC0 batchD2 "utt"
    none stMask 0 (by rfl) (by rfl)

/-- C9: the anonymize operation never mutates the input batch: in the
allocation-store model, every pre-existing store entry — in particular
the input batch with its identifiers, vectors, speaker labels and gender
labels — is unchanged after the call, and the result is a freshly
allocated batch whose reference is distinct from every pre-existing
one. -/
theorem anonymize_never_mutates_input (st : AnonState) (fs : FS)
    (rngM : Nat → Nat → Nat) (rngC : Nat → Nat → ℚ)
    (store : List SpeakerEmbeddings) (i : Nat) (lvl : String)
    (hok : refRunOk (anonymize_embeddings_ref st fs rngM rngC store i lvl) = true) :
    (∀ j, j < store.length →
      (refResultStore (anonymize_embeddings_ref st fs rngM rngC store i lvl)).bind
          (fun s => s[j]?) = store[j]?)
    ∧ refResultIndex (anonymize_embeddings_ref st fs rngM rngC store i lvl) =
        some store.length
    ∧ ∀ j, j < store.length →
        refResultIndex (anonymize_embeddings_ref st fs rngM rngC store i lvl) ≠
          some j := by
  cases hget : store[i]? with
  | none => simp [anonymize_embeddings_ref, hget, refRunOk] at hok
  | some se =>
    cases hcall : anonymize_embeddings st fs rngM rngC se lvl with
    | error e => simp [anonymize_embeddings_ref, hget, hcall, refRunOk] at hok
    | ok t =>
      obtain ⟨out, st2, r⟩ := t
      have href : anonymize_embeddings_ref st fs rngM rngC store i lvl =
          .ok (store ++ [out], store.length, st2) := by
        simp [anonymize_embeddings_ref, hget, hcall]
      rw [href]
      refine ⟨?_, rfl, ?_⟩
      · intro j hj
        simp only [refResultStore, Option.bind_some]
        exact List.getElem?_append_left hj
      · intro j hj hc
        simp only [refResultIndex] at hc
        injection hc with hc1
        omega

/-- Witness for C9: running the masking fixture through the store wrapper
on a one-batch store leaves the input entry intact and allocates the
output at the fresh index 1. -/
theorem anonymize_never_mutates_input_witness :
    (∀ j, j < 1 →
      (refResultStore (anonymize_embeddings_ref stMask fsCal rngM0 rngC0
          [batchD2] 0 "utt")).bind (fun s => s[j]?) = [batchD2][j]?)
    ∧ refResultIndex (anonymize_embeddings_ref stMask fsCal rngM0 rngC0
        [batchD2] 0 "utt") = some 1
    ∧ ∀ j, j < 1 →
        refResultIndex (anonymize_embeddings_ref stMask fsCal rngM0 rngC0
          [batchD2] 0 "utt") ≠ some j :=
  anonymize_never_mutates_input stMask fsCal rngM0 rngC0 [batchD2] 0 "utt" (by rfl)

end RandomAnon
